import Mathlib

/-!
Verification of `src/notebooks/helper_functions.py` (event classification
helpers): a shallow embedding of `import_data` and `normalize_image_data`
over exact rational arithmetic, together with theorems settling the
specification's claims about them.

Modelling conventions:
* A scalar is a rational number `ℚ` (the source works with parsed decimal
  numbers; exact arithmetic replaces IEEE floats).
* A raw input line is a list of whitespace-separated tokens.  A token either
  parses as a number (`some q`) or is non-numeric (`none`).
* `np.fromstring(line, sep=' ')` reads tokens left to right and stops at the
  first token that does not parse as a number, returning the numeric prefix
  read so far (numpy's documented text-mode behaviour: a partial read with a
  `DeprecationWarning`, not an exception).
* Indexing a 1-D numpy array out of range raises `IndexError`; fallible
  steps therefore return `Except`.
* `x / 0` on IEEE floats yields a non-finite value (`NaN` or `±Inf`) and no
  exception; a division result is therefore modelled as `Option ℚ`, with
  `none` standing for the non-finite outcome of a zero denominator.
-/

set_option maxRecDepth 40000

/-- A token of an input line: `some q` is a token that parses as the number
`q`; `none` is a token that is not numeric. -/
abbrev Token := Option ℚ

/-- Models `np.fromstring(line, sep=' ')` (source line 38): read tokens left
to right, stop at the first non-numeric token, and return the list of
numbers parsed so far.  No exception is raised on unmatched trailing data. -/
def np_fromstring (line : List Token) : List ℚ :=
  (line.takeWhile Option.isSome).filterMap id

/-- The only run-time failure of the decode loop: indexing the parsed vector
out of range (Python `IndexError`), which happens exactly when the parsed
vector has fewer than 262 entries. -/
inductive DecodeError where
  | indexError

/-- One decoded event record: the slices taken from a parsed line by the
loop body of `import_data` (source lines 39-50). -/
structure Record where
  image : List ℚ
  energy : ℚ × ℚ
  pos : ℚ × ℚ × ℚ × ℚ
  label : ℕ

/-- The record built from a parsed vector `v` with at least 262 entries
(source lines 39-50): `image = v[:256]`, `energy = (v[256], v[259])`,
`pos = (v[257], v[258], v[260], v[261])`, and `label = 0` when
`energy[1] == 0`, else `1`.  The `getD` defaults are never reached: callers
guard `262 ≤ v.length`. -/
def recordOf (v : List ℚ) : Record :=
  { image := v.take 256
    energy := (v.getD 256 0, v.getD 259 0)
    pos := (v.getD 257 0, v.getD 258 0, v.getD 260 0, v.getD 261 0)
    label := if v.getD 259 0 = 0 then 0 else 1 }

/-- One iteration of the read loop of `import_data` (source lines 38-55):
parse the line, then slice it at the fixed offsets 0-255, 256-261.  When the
parsed vector has fewer than 262 entries, one of the scalar indexings
`line[256] … line[261]` is out of range and raises `IndexError` before
anything is appended. -/
def decodeLine (line : List Token) : Except DecodeError Record :=
  let v := np_fromstring line
  if 262 ≤ v.length then
    Except.ok (recordOf v)
  else
    Except.error DecodeError.indexError

/-- The read loop of `import_data` (source lines 37-55): decode the lines in
order, accumulating records.  An exception raised on any line propagates and
aborts the whole call, so no partial result is ever returned. -/
def decodeLines : List (List Token) → Except DecodeError (List Record)
  | [] => Except.ok []
  | l :: ls =>
    match decodeLine l with
    | Except.ok r =>
      match decodeLines ls with
      | Except.ok rs => Except.ok (r :: rs)
      | Except.error e => Except.error e
    | Except.error e => Except.error e

/-- `import_data(path, num_samples)` (source lines 5-63): the file content
is modelled as the list of its lines.  The body reads the file line by line,
appends `image`, `energy`, `pos`, `label` per line to four lists, and
returns the four lists.  The `num_samples` parameter is accepted but never
read by the body. -/
def import_data (num_samples : Option ℕ) (file : List (List Token)) :
    Except DecodeError
      (List (List ℚ) × List (ℚ × ℚ) × List (ℚ × ℚ × ℚ × ℚ) × List ℕ) :=
  match decodeLines file with
  | Except.ok rs =>
      Except.ok (rs.map Record.image, rs.map Record.energy,
                 rs.map Record.pos, rs.map Record.label)
  | Except.error e => Except.error e

/-- The `images` component returned by a successful `import_data` call
(empty when the call raised). -/
def importedImages (ns : Option ℕ) (file : List (List Token)) :
    List (List ℚ) :=
  match import_data ns file with
  | Except.ok r => r.1
  | Except.error _ => []

/-- A numpy array: a shape together with the row-major flat data. -/
structure NDArray where
  shape : List ℕ
  data : List ℚ

/-- Models `np.array` applied to a list of equal-length 1-D arrays (source
line 59, `images = np.array(images)`): a 2-D array whose shape is
`(number of rows, length of a row)` with row-major data.  No reshape is
applied afterwards in the source. -/
def np_array_rows (rows : List (List ℚ)) : NDArray :=
  { shape := [rows.length, (rows.headD []).length]
    data := rows.flatten }

/-- Maximum of a list of rationals; models `np.amax` on a non-empty array.
The value on `[]` is arbitrary (`np.amax` of an empty array raises). -/
def listMax : List ℚ → ℚ
  | [] => 0
  | [x] => x
  | x :: y :: t => max x (listMax (y :: t))

/-- Minimum of a list of rationals; models `np.amin` on a non-empty array.
The value on `[]` is arbitrary (`np.amin` of an empty array raises). -/
def listMin : List ℚ → ℚ
  | [] => 0
  | [x] => x
  | x :: y :: t => min x (listMin (y :: t))

/-- `np.amax(images)` (source line 70): maximum over every value of every
grid of the set. -/
def np_amax (images : List (List ℚ)) : ℚ :=
  listMax images.flatten

/-- `np.amin(images)` (source line 70): minimum over every value of every
grid of the set. -/
def np_amin (images : List (List ℚ)) : ℚ :=
  listMin images.flatten

/-- `np.mean(images)` (source line 71): arithmetic mean over every value of
every grid of the set. -/
def np_mean (images : List (List ℚ)) : ℚ :=
  images.flatten.sum / (images.flatten.length : ℚ)

/-- Scalar division as IEEE floating point performs it in the source: a zero
denominator produces a non-finite value (`NaN`/`±Inf`, modelled as `none`)
and raises no exception; otherwise the exact quotient. -/
def npDiv (x y : ℚ) : Option ℚ :=
  if y = 0 then none else some (x / y)

/-- Elementwise rescaling `(x - mean) / term` of an image set with the given
statistics (the broadcast expression of source line 72). -/
def rescaleWith (mean term : ℚ) (images : List (List ℚ)) :
    List (List (Option ℚ)) :=
  images.map fun row => row.map fun x => npDiv (x - mean) term

/-- `normalize_image_data(images)` (source lines 66-73): compute
`img_term = np.amax(images) - np.amin(images)` and `img_mean =
np.mean(images)` once over the whole set, then return
`(images - img_mean) / img_term` elementwise.  There is no guard on
`img_term == 0`. -/
def normalize_image_data (images : List (List ℚ)) : List (List (Option ℚ)) :=
  rescaleWith (np_mean images) (np_amax images - np_amin images) images

/-- The rational values of a normalized set all of whose entries are finite;
feeding a once-normalized set back into `normalize_image_data` acts on these
values. -/
def toValues (xss : List (List (Option ℚ))) : List (List ℚ) :=
  xss.map fun row => row.map fun o => o.getD 0

/-- The scalar map `x ↦ (x - mean) / (max - min)` that
`normalize_image_data` applies to every value when the denominator is
nonzero. -/
def normFun (images : List (List ℚ)) : ℚ → ℚ :=
  fun x => (x - np_mean images) / (np_amax images - np_amin images)

/-- The specification's concrete scenario line: 256 zeros followed by
`1.0 2.0 3.0 0.0 5.0 6.0`, every token numeric. -/
def scenarioLine : List Token :=
  (List.replicate 256 (0 : ℚ) ++ [1, 2, 3, 0, 5, 6]).map some

/-- A one-line input file holding the scenario line. -/
def scenarioFile : List (List Token) :=
  [scenarioLine]

/-- The record that decoding the scenario line produces. -/
def scenarioRecord : Record :=
  { image := List.replicate 256 0
    energy := (1, 0)
    pos := (2, 3, 5, 6)
    label := 0 }

/-- A line whose tokens are not all numeric: 262 numeric tokens followed by
one non-numeric token. -/
def junkTailLine : List Token :=
  (List.replicate 262 (0 : ℚ)).map some ++ [none]

/-- A line whose tokens are not all numeric and whose numeric prefix is
shorter than 262 fields. -/
def shortJunkLine : List Token :=
  [some 1, none, some 2]

/-- A line of 261 numeric fields (one field short of a full record). -/
def shortLine : List Token :=
  (List.replicate 261 (0 : ℚ)).map some

/- ------------------------------------------------------------------ -/
/- Helper lemmas                                                      -/
/- ------------------------------------------------------------------ -/

/-- Parsing a line all of whose tokens are numeric yields exactly its list
of values. -/
theorem np_fromstring_map_some (l : List ℚ) : np_fromstring (l.map some) = l := by
  induction l with
  | nil => rfl
  | cons x xs ih =>
    simpa [np_fromstring, List.takeWhile_cons, List.filterMap_cons] using ih

/-- When every line of the file parses to at least 262 fields, the read loop
succeeds and returns the records of the lines, in input order. -/
theorem decodeLines_ok (file : List (List Token))
    (h : ∀ l ∈ file, 262 ≤ (np_fromstring l).length) :
    decodeLines file = Except.ok (file.map fun l => recordOf (np_fromstring l)) := by
  induction file with
  | nil => rfl
  | cons l ls ih =>
    have hl : 262 ≤ (np_fromstring l).length := h l (by simp)
    have hls := ih fun x hx => h x (List.mem_cons_of_mem _ hx)
    simp [decodeLines, decodeLine, hl, hls]

/-- When some line of the file parses to fewer than 262 fields, the read
loop raises `IndexError` and returns no records at all. -/
theorem decodeLines_error_of_short (file : List (List Token))
    (h : ∃ l ∈ file, (np_fromstring l).length < 262) :
    decodeLines file = Except.error DecodeError.indexError := by
  induction file with
  | nil => simp at h
  | cons l ls ih =>
    rcases h with ⟨x, hx, hlen⟩
    rcases List.mem_cons.mp hx with rfl | hx
    · have hnot : ¬ 262 ≤ (np_fromstring x).length := by omega
      simp [decodeLines, decodeLine, hnot]
    · have ht := ih ⟨x, hx, hlen⟩
      cases hdl : decodeLine l with
      | ok r => simp [decodeLines, hdl, ht]
      | error e => cases e; simp [decodeLines, hdl]

/-- When every line of the file parses to at least 262 fields, the returned
`images` collection is the list of flat 256-value slices of the lines, in
input order. -/
theorem importedImages_eq (ns : Option ℕ) (file : List (List Token))
    (h : ∀ l ∈ file, 262 ≤ (np_fromstring l).length) :
    importedImages ns file = file.map fun l => (np_fromstring l).take 256 := by
  simp only [importedImages, import_data, decodeLines_ok file h, List.map_map]
  rfl

/- ------------------------------------------------------------------ -/
/- Claim theorems                                                     -/
/- ------------------------------------------------------------------ -/

/-- C1: for a file every line of which parses to a numeric vector of at
least 262 fields, `import_data` succeeds and the four returned collections
are exactly the per-line slices mapped over the lines in input order:
element `i` of each collection is built from line `i`, with
`image = v[:256]`, `energy = (v[256], v[259])`,
`pos = (v[257], v[258], v[260], v[261])`. -/
theorem import_data_extracts (ns : Option ℕ) (file : List (List Token))
    (h : ∀ l ∈ file, 262 ≤ (np_fromstring l).length) :
    import_data ns file =
      Except.ok
        (file.map fun l => (np_fromstring l).take 256,
         file.map fun l => ((np_fromstring l).getD 256 0, (np_fromstring l).getD 259 0),
         file.map fun l => ((np_fromstring l).getD 257 0, (np_fromstring l).getD 258 0,
                            (np_fromstring l).getD 260 0, (np_fromstring l).getD 261 0),
         file.map fun l => if (np_fromstring l).getD 259 0 = 0 then 0 else 1) := by
  simp only [import_data, decodeLines_ok file h, List.map_map]
  rfl

/-- Witness for C1 at the specification's concrete scenario: the one-line
file with 256 zeros then `1 2 3 0 5 6` decodes to a zero image,
`energy = (1, 0)`, `pos = (2, 3, 5, 6)`, `label = 0`. -/
theorem import_data_extracts_witness :
    import_data none scenarioFile =
      Except.ok ([List.replicate 256 (0 : ℚ)], [((1 : ℚ), (0 : ℚ))],
                 [((2 : ℚ), (3 : ℚ), (5 : ℚ), (6 : ℚ))], [0]) := by
  rw [import_data_extracts none scenarioFile (by decide)]
  rfl

/-- C10: the `num_samples` parameter has no effect on the result of
`import_data`: the body never reads it, so any two values give identical
outputs on every file. -/
theorem num_samples_no_effect (n1 n2 : Option ℕ) (file : List (List Token)) :
    import_data n1 file = import_data n2 file := rfl

/-- C2: every record produced by the decode loop has a label in `{0, 1}`,
the label is `1` exactly when the second energy value is nonzero (hence `0`
exactly when it is zero), and that second energy value is the parsed field
at offset 259. -/
theorem decode_label_binary (l : List Token) (r : Record)
    (h : decodeLine l = Except.ok r) :
    (r.label = 0 ∨ r.label = 1) ∧
    (r.label = 1 ↔ r.energy.2 ≠ 0) ∧
    r.energy.2 = (np_fromstring l).getD 259 0 := by
  unfold decodeLine at h
  by_cases hv : 262 ≤ (np_fromstring l).length
  · simp only [hv, if_true, Except.ok.injEq] at h
    subst h
    refine ⟨?_, ?_, rfl⟩
    · simp only [recordOf]
      split_ifs <;> norm_num
    · simp only [recordOf]
      split_ifs with h0
      · exact iff_of_false (by norm_num) fun hne => hne h0
      · exact iff_of_true rfl h0
  · simp [hv] at h

/-- Witness for C2 at the scenario line: the decoded record has label `0`,
its second energy value is `0`, and that value is the field at offset
259. -/
theorem decode_label_binary_witness :
    ((scenarioRecord.label = 0 ∨ scenarioRecord.label = 1) ∧
     (scenarioRecord.label = 1 ↔ scenarioRecord.energy.2 ≠ 0) ∧
     scenarioRecord.energy.2 = (np_fromstring scenarioLine).getD 259 0) :=
  decode_label_binary scenarioLine scenarioRecord (by rfl)

/-- C4: for a file every line of which parses to exactly 262 numeric
fields, `import_data` succeeds and the four returned collections all have
the same length, equal to the number of lines of the file. -/
theorem import_data_lengths (ns : Option ℕ) (file : List (List Token))
    (h : ∀ l ∈ file, (np_fromstring l).length = 262) :
    (import_data ns file).toOption.map
        (fun r => (r.1.length, r.2.1.length, r.2.2.1.length, r.2.2.2.length)) =
      some (file.length, file.length, file.length, file.length) := by
  have h262 : ∀ l ∈ file, 262 ≤ (np_fromstring l).length :=
    fun l hl => (h l hl).ge
  simp [import_data, decodeLines_ok file h262, Except.toOption]

/-- Witness for C4 at the one-line scenario file: all four collections have
length 1, the number of lines. -/
theorem import_data_lengths_witness :
    (import_data none scenarioFile).toOption.map
        (fun r => (r.1.length, r.2.1.length, r.2.2.1.length, r.2.2.2.length)) =
      some (scenarioFile.length, scenarioFile.length,
            scenarioFile.length, scenarioFile.length) :=
  import_data_lengths none scenarioFile (by decide)

/-- C5 counterexample: the claim that the returned images are 16×16 grids
fails on the code.  For the one-line scenario file, `np.array` over the
accumulated image list yields a 2-D array of shape `(1, 256)` — flat
256-value rows — not a `(1, 16, 16)` stack of grids: the source never calls
reshape on it. -/
theorem images_not_grids_cex :
    (np_array_rows (importedImages none scenarioFile)).shape ≠ [1, 16, 16] ∧
    (np_array_rows (importedImages none scenarioFile)).shape = [1, 256] := by
  rw [importedImages_eq none scenarioFile (by decide)]
  constructor <;> decide

/-- C5 amended: after all lines of a well-formed file are consumed, the
returned image collection holds the accumulated 256-value vectors as flat
rows: `np.array` over them has shape `(number of lines, 256)` and row-major
data equal to the concatenated slices.  No 16×16 reshape is performed. -/
theorem images_flat_not_reshaped (ns : Option ℕ) (file : List (List Token))
    (hne : file ≠ [])
    (h : ∀ l ∈ file, 262 ≤ (np_fromstring l).length) :
    (np_array_rows (importedImages ns file)).shape = [file.length, 256] ∧
    (np_array_rows (importedImages ns file)).data =
      (file.map fun l => (np_fromstring l).take 256).flatten := by
  rw [importedImages_eq ns file h]
  refine ⟨?_, rfl⟩
  cases file with
  | nil => exact absurd rfl hne
  | cons l ls =>
    have hl : 262 ≤ (np_fromstring l).length := h l (by simp)
    simp [np_array_rows, List.length_take]
    omega

/-- Witness for the amended C5 at the scenario file: shape `(1, 256)` and
data equal to the single flat slice. -/
theorem images_flat_not_reshaped_witness :
    (np_array_rows (importedImages none scenarioFile)).shape =
        [scenarioFile.length, 256] ∧
    (np_array_rows (importedImages none scenarioFile)).data =
      (scenarioFile.map fun l => (np_fromstring l).take 256).flatten :=
  images_flat_not_reshaped none scenarioFile (by decide) (by decide)

/-- C6 counterexample: the claim that any line with a non-numeric token
makes the decode fail fails on the code.  A line of 262 numeric tokens
followed by a non-numeric token cannot be fully tokenized into numbers, yet
`np.fromstring` returns the numeric prefix without raising, the record is
decoded from it, and the whole decode succeeds. -/
theorem junk_tail_line_decoded_cex :
    import_data none [junkTailLine] =
      Except.ok ([List.replicate 256 (0 : ℚ)], [((0 : ℚ), (0 : ℚ))],
                 [((0 : ℚ), (0 : ℚ), (0 : ℚ), (0 : ℚ))], [0]) := by
  rfl

/-- C6 amended: a line with non-numeric content only makes the decode fail
when its maximal numeric prefix has fewer than 262 fields; the failure is
the out-of-range indexing of the parsed vector, it propagates, and the
whole decode aborts: no partial dataset is returned and no line is
skipped.  (A line with at least 262 leading numeric fields decodes from its
numeric prefix regardless of trailing non-numeric content, as the
counterexample shows.) -/
theorem decode_aborts_midfile (ns : Option ℕ)
    (pre : List (List Token)) (bad : List Token) (rest : List (List Token))
    (hbad : (np_fromstring bad).length < 262) :
    import_data ns (pre ++ bad :: rest) = Except.error DecodeError.indexError := by
  have h := decodeLines_error_of_short (pre ++ bad :: rest) ⟨bad, by simp, hbad⟩
  simp [import_data, h]

/-- Witness for the amended C6: a file whose first line is well-formed and
whose second line has a non-numeric token after one numeric field aborts
with the index error and returns nothing. -/
theorem decode_aborts_midfile_witness :
    import_data none ([scenarioLine] ++ shortJunkLine :: []) =
      Except.error DecodeError.indexError :=
  decode_aborts_midfile none [scenarioLine] shortJunkLine [] (by decide)

/-- C7 counterexample: the claim that normalization fails on an all-equal
image set fails on the code.  On `[[3, 3], [3, 3]]` the denominator
`amax - amin` is zero, no error is raised, and the returned set consists
entirely of the non-finite results of division by zero. -/
theorem normalize_degenerate_returns_cex :
    normalize_image_data [[(3 : ℚ), 3], [3, 3]] = [[none, none], [none, none]] := by
  norm_num [normalize_image_data, rescaleWith, npDiv, np_amax, np_amin,
            np_mean, listMax, listMin]
  rfl

/-- C7 amended: when `amax` equals `amin` (in particular on any all-equal
input set), `normalize_image_data` does not fail: it divides by zero and
returns a set in which every value is the non-finite outcome of that
division (`NaN`/`Inf`); no error of any kind is raised. -/
theorem normalize_degenerate_nonfinite (images : List (List ℚ))
    (h : np_amax images = np_amin images) :
    normalize_image_data images = images.map fun row => row.map fun _ => none := by
  simp [normalize_image_data, rescaleWith, npDiv, h, sub_self]

/-- Witness for the amended C7 at the all-equal set `[[5, 5]]`. -/
theorem normalize_degenerate_nonfinite_witness :
    normalize_image_data [[(5 : ℚ), 5]] = [[none, none]] := by
  have h := normalize_degenerate_nonfinite [[(5 : ℚ), 5]]
    (by norm_num [np_amax, np_amin, listMax, listMin])
  simpa using h

/-- C8: a file containing a line that parses to fewer than 262 numeric
fields makes `import_data` raise the out-of-range index error: the decode
aborts, and no record built from out-of-range offsets (and no misaligned
dataset) is ever returned. -/
theorem short_line_error (ns : Option ℕ) (file : List (List Token))
    (h : ∃ l ∈ file, (np_fromstring l).length < 262) :
    import_data ns file = Except.error DecodeError.indexError := by
  simp [import_data, decodeLines_error_of_short file h]

/-- Witness for C8 at a one-line file of 261 numeric fields: the decode
raises the index error. -/
theorem short_line_error_witness :
    import_data none [shortLine] = Except.error DecodeError.indexError :=
  short_line_error none [shortLine] ⟨shortLine, by simp, by decide⟩

/- ------------------------------------------------------------------ -/
/- Normalization lemmas                                               -/
/- ------------------------------------------------------------------ -/

/-- Pointwise description of `normalize_image_data` when the denominator
`amax - amin` is nonzero: every value `x` becomes the finite quotient
`(x - mean) / (amax - amin)`, with the statistics taken once over the whole
set. -/
theorem normalize_image_data_eq (images : List (List ℚ))
    (h : np_amax images - np_amin images ≠ 0) :
    normalize_image_data images =
      images.map fun row => row.map fun x => some (normFun images x) := by
  simp [normalize_image_data, rescaleWith, npDiv, normFun, h]

/-- The maximum of a non-empty list is one of its elements. -/
theorem listMax_mem : ∀ (l : List ℚ), l ≠ [] → listMax l ∈ l
  | [], h => absurd rfl h
  | [x], _ => by simp [listMax]
  | x :: y :: t, _ => by
    have ih := listMax_mem (y :: t) (by simp)
    rcases max_choice x (listMax (y :: t)) with h | h <;>
      simp [listMax, h, ih]

/-- Every element of a list is at most its maximum. -/
theorem le_listMax : ∀ {l : List ℚ} {x : ℚ}, x ∈ l → x ≤ listMax l
  | [], x, hx => absurd hx (List.not_mem_nil x)
  | [y], x, hx => by
    simp at hx
    simp [listMax, hx]
  | y :: z :: t, x, hx => by
    rcases List.mem_cons.mp hx with rfl | hx
    · simp only [listMax]
      exact le_max_left _ _
    · have ih : x ≤ listMax (z :: t) := le_listMax hx
      simp only [listMax]
      exact le_trans ih (le_max_right _ _)

/-- The minimum of a non-empty list is one of its elements. -/
theorem listMin_mem : ∀ (l : List ℚ), l ≠ [] → listMin l ∈ l
  | [], h => absurd rfl h
  | [x], _ => by simp [listMin]
  | x :: y :: t, _ => by
    have ih := listMin_mem (y :: t) (by simp)
    rcases min_choice x (listMin (y :: t)) with h | h <;>
      simp [listMin, h, ih]

/-- Every element of a list is at least its minimum. -/
theorem listMin_le : ∀ {l : List ℚ} {x : ℚ}, x ∈ l → listMin l ≤ x
  | [], x, hx => absurd hx (List.not_mem_nil x)
  | [y], x, hx => by
    simp at hx
    simp [listMin, hx]
  | y :: z :: t, x, hx => by
    rcases List.mem_cons.mp hx with rfl | hx
    · simp only [listMin]
      exact min_le_left _ _
    · have ih : listMin (z :: t) ≤ x := listMin_le hx
      simp only [listMin]
      exact le_trans (min_le_right _ _) ih

/-- A monotone map commutes with the maximum of a non-empty list. -/
theorem listMax_map_mono (f : ℚ → ℚ) (hf : Monotone f) (l : List ℚ)
    (hl : l ≠ []) : listMax (l.map f) = f (listMax l) := by
  have hmapne : l.map f ≠ [] := by
    simpa using hl
  apply le_antisymm
  · obtain ⟨y, hy, heq⟩ := List.mem_map.mp (listMax_mem (l.map f) hmapne)
    calc listMax (l.map f) = f y := heq.symm
      _ ≤ f (listMax l) := hf (le_listMax hy)
  · exact le_listMax (List.mem_map.mpr ⟨listMax l, listMax_mem l hl, rfl⟩)

/-- A monotone map commutes with the minimum of a non-empty list. -/
theorem listMin_map_mono (f : ℚ → ℚ) (hf : Monotone f) (l : List ℚ)
    (hl : l ≠ []) : listMin (l.map f) = f (listMin l) := by
  have hmapne : l.map f ≠ [] := by
    simpa using hl
  apply le_antisymm
  · exact listMin_le (List.mem_map.mpr ⟨listMin l, listMin_mem l hl, rfl⟩)
  · obtain ⟨y, hy, heq⟩ := List.mem_map.mp (listMin_mem (l.map f) hmapne)
    calc f (listMin l) ≤ f y := hf (listMin_le hy)
      _ = listMin (l.map f) := heq

/-- Sum of the affine images `(x - mu) / t` of a list. -/
theorem sum_map_sub_div (mu t : ℚ) (l : List ℚ) :
    (l.map fun x => (x - mu) / t).sum = (l.sum - l.length * mu) / t := by
  induction l with
  | nil => simp
  | cons x xs ih =>
    simp only [List.map_cons, List.sum_cons, List.length_cons, ih]
    push_cast
    ring

/-- C3: for an input image set whose values are not all equal,
`normalize_image_data` computes the mean, maximum and minimum once over
every value of every grid and replaces each value `x` by
`(x - global_mean) / (global_max - global_min)`. -/
theorem normalize_global_pointwise (images : List (List ℚ))
    (h : np_amax images ≠ np_amin images) :
    normalize_image_data images =
      images.map fun row => row.map fun x =>
        some ((x - np_mean images) / (np_amax images - np_amin images)) := by
  simpa [normFun] using normalize_image_data_eq images (sub_ne_zero_of_ne h)

/-- Witness for C3 at the specification's concrete scenario
`[[0, 0], [10, 10]]`: the global statistics are `mean = 5`, `max = 10`,
`min = 0` and the transformed values are `-1/2, -1/2, 1/2, 1/2`. -/
theorem normalize_global_pointwise_witness :
    np_mean [[(0 : ℚ), 0], [10, 10]] = 5 ∧
    np_amax [[(0 : ℚ), 0], [10, 10]] = 10 ∧
    np_amin [[(0 : ℚ), 0], [10, 10]] = 0 ∧
    normalize_image_data [[(0 : ℚ), 0], [10, 10]] =
      [[some (-(1 : ℚ) / 2), some (-(1 : ℚ) / 2)],
       [some ((1 : ℚ) / 2), some ((1 : ℚ) / 2)]] := by
  have hmean : np_mean [[(0 : ℚ), 0], [10, 10]] = 5 := by
    norm_num [np_mean]
  have hmax : np_amax [[(0 : ℚ), 0], [10, 10]] = 10 := by
    norm_num [np_amax, listMax, max_def]
  have hmin : np_amin [[(0 : ℚ), 0], [10, 10]] = 0 := by
    norm_num [np_amin, listMin, min_def]
  refine ⟨hmean, hmax, hmin, ?_⟩
  rw [normalize_global_pointwise [[(0 : ℚ), 0], [10, 10]]
    (by rw [hmax, hmin]; norm_num)]
  rw [hmean, hmax, hmin]
  norm_num

/-- C9: in exact rational arithmetic, renormalizing a once-normalized set —
with the statistics recomputed from the normalized values — reproduces the
normalized set, whereas rescaling the once-normalized values with the
original set's statistics is not a fixed point in general, as the set
`[[0, 0], [10, 10]]` shows. -/
theorem normalize_idempotent_recomputed :
    (∀ images : List (List ℚ), np_amax images ≠ np_amin images →
        normalize_image_data (toValues (normalize_image_data images)) =
          normalize_image_data images) ∧
    rescaleWith (np_mean [[(0 : ℚ), 0], [10, 10]])
        (np_amax [[(0 : ℚ), 0], [10, 10]] - np_amin [[(0 : ℚ), 0], [10, 10]])
        (toValues (normalize_image_data [[(0 : ℚ), 0], [10, 10]])) ≠
      normalize_image_data [[(0 : ℚ), 0], [10, 10]] := by
  constructor
  · intro images hM
    have ht0 : np_amax images - np_amin images ≠ 0 := sub_ne_zero_of_ne hM
    have hflat : images.flatten ≠ [] := by
      intro hc
      exact hM (by simp [np_amax, np_amin, hc, listMax, listMin])
    have hlen : (images.flatten.length : ℚ) ≠ 0 := by
      have hne : images.flatten.length ≠ 0 :=
        fun hc => hflat (List.length_eq_zero.mp hc)
      exact_mod_cast hne
    have hpos : 0 < np_amax images - np_amin images := by
      have hle : np_amin images ≤ np_amax images :=
        listMin_le (listMax_mem images.flatten hflat)
      exact sub_pos.mpr (lt_of_le_of_ne hle (Ne.symm hM))
    have hmono : Monotone (normFun images) := by
      intro a b hab
      simp only [normFun]
      exact (div_le_div_iff_of_pos_right hpos).mpr (sub_le_sub_right hab _)
    have hnorm := normalize_image_data_eq images ht0
    have htv : toValues (normalize_image_data images) =
        images.map fun row => row.map (normFun images) := by
      rw [hnorm]
      simp [toValues, List.map_map, Function.comp]
    have hyflat : (images.map fun row => row.map (normFun images)).flatten =
        images.flatten.map (normFun images) :=
      (List.map_flatten _ _).symm
    have hmax2 : np_amax (images.map fun row => row.map (normFun images)) =
        normFun images (np_amax images) := by
      simp only [np_amax]
      rw [hyflat]
      exact listMax_map_mono _ hmono _ hflat
    have hmin2 : np_amin (images.map fun row => row.map (normFun images)) =
        normFun images (np_amin images) := by
      simp only [np_amin]
      rw [hyflat]
      exact listMin_map_mono _ hmono _ hflat
    have hterm2 : np_amax (images.map fun row => row.map (normFun images)) -
        np_amin (images.map fun row => row.map (normFun images)) = 1 := by
      rw [hmax2, hmin2]
      simp only [normFun]
      rw [div_sub_div_same, sub_sub_sub_cancel_right, div_self ht0]
    have hmean2 : np_mean (images.map fun row => row.map (normFun images)) = 0 := by
      have hcancel : (images.flatten.length : ℚ) * np_mean images =
          images.flatten.sum := by
        simp only [np_mean]
        exact mul_div_cancel₀ _ hlen
      simp only [np_mean]
      rw [hyflat, List.length_map]
      rw [show normFun images = fun x =>
        (x - np_mean images) / (np_amax images - np_amin images) from rfl]
      rw [sum_map_sub_div, hcancel, sub_self, zero_div, zero_div]
    rw [htv]
    calc normalize_image_data (images.map fun row => row.map (normFun images))
        = rescaleWith 0 1 (images.map fun row => row.map (normFun images)) := by
          simp only [normalize_image_data]
          rw [hmean2, hterm2]
      _ = images.map fun row => row.map fun x => some (normFun images x) := by
          simp [rescaleWith, npDiv, List.map_map, Function.comp]
      _ = normalize_image_data images := hnorm.symm
  · intro hcontra
    have h1 : normalize_image_data [[(0 : ℚ), 0], [10, 10]] =
        [[some (-(1 : ℚ) / 2), some (-(1 : ℚ) / 2)],
         [some ((1 : ℚ) / 2), some ((1 : ℚ) / 2)]] := by
      norm_num [normalize_image_data, rescaleWith, npDiv, np_mean, np_amax,
                np_amin, listMax, listMin, max_def, min_def]
    have h2 : toValues [[some (-(1 : ℚ) / 2), some (-(1 : ℚ) / 2)],
        [some ((1 : ℚ) / 2), some ((1 : ℚ) / 2)]] =
        [[-(1 : ℚ) / 2, -(1 : ℚ) / 2], [(1 : ℚ) / 2, (1 : ℚ) / 2]] := by
      norm_num [toValues]
    have h3 : np_mean [[(0 : ℚ), 0], [10, 10]] = 5 := by
      norm_num [np_mean]
    have h4 : np_amax [[(0 : ℚ), 0], [10, 10]] = 10 := by
      norm_num [np_amax, listMax, max_def]
    have h5 : np_amin [[(0 : ℚ), 0], [10, 10]] = 0 := by
      norm_num [np_amin, listMin, min_def]
    rw [h1, h2, h3, h4, h5] at hcontra
    norm_num [rescaleWith, npDiv] at hcontra

/-- Witness for C9: on `[[0, 0], [10, 10]]`, renormalizing the normalized
set with recomputed statistics reproduces the normalized set. -/
theorem normalize_idempotent_recomputed_witness :
    normalize_image_data
        (toValues (normalize_image_data [[(0 : ℚ), 0], [10, 10]])) =
      normalize_image_data [[(0 : ℚ), 0], [10, 10]] :=
  normalize_idempotent_recomputed.1 [[(0 : ℚ), 0], [10, 10]]
    (by norm_num [np_amax, np_amin, listMax, listMin, max_def, min_def])
